import Mathlib

/-!
Shallow embedding of the `npm_rs` crate (`src/lib.rs`): a fluent builder
(`NpmEnv`, `Npm`) over `std::process::Command`.  The relevant slice of the
standard library's `Command` is embedded explicitly: a program name, an
ordered argument vector, an environment-override table with a `clear` flag
(mirroring `std::sys_common::process::CommandEnv`), and an optional working
directory.  Spawning a process is effectful, so `Npm.exec` takes the
operating system as an oracle mapping the fully built command to either a
launch failure or a launched child's exit status.
-/

/-- Platform shell interpreter.  `cfg_if!` in the source selects
`"cmd.exe"` on Windows and `"bash"` elsewhere; we embed the non-Windows
branch.  No theorem below depends on the literal value except those that
quote the spec's `<shell>` placeholder for the default configurator. -/
def CMD : String := "bash"

/-- Platform inline-execution flag: `"/C"` on Windows, `"-c"` elsewhere. -/
def OPT : String := "-c"

/-- Constant `NODE_ENV` from the source. -/
def NODE_ENV : String := "NODE_ENV"

/-- Constant `NPM` from the source. -/
def NPM : String := "npm"

/-- Constant `NPM_INIT` from the source. -/
def NPM_INIT : String := "init"

/-- Constant `NPM_INSTALL` from the source. -/
def NPM_INSTALL : String := "install"

/-- Constant `NPM_UNINSTALL` from the source. -/
def NPM_UNINSTALL : String := "uninstall"

/-- Constant `NPM_UPDATE` from the source. -/
def NPM_UPDATE : String := "update"

/-- Constant `NPM_RUN` from the source. -/
def NPM_RUN : String := "run"

/-- Environment-override table of a `Command`, mirroring the standard
library's `CommandEnv { clear: bool, vars: BTreeMap<EnvKey, Option<OsString>> }`.
The map is embedded as an insertion-ordered association list in which a
later entry for a key overrides an earlier one (`BTreeMap::insert`
overwrites); an entry `(k, none)` marks the key as removed from the
child's environment. -/
structure CommandEnv where
  clear : Bool
  vars : List (String × Option String)
  deriving DecidableEq

/-- Embedding of `std::process::Command` as configured state: program,
argument vector, environment overrides and working directory. -/
structure Command where
  program : String
  args : List String
  env : CommandEnv
  cwd : Option String
  deriving DecidableEq

/-- Embeds `Command::new(program)`: empty argument vector, untouched inherited
environment, no explicit working directory. -/
def Command.new (program : String) : Command :=
  ⟨program, [], ⟨false, []⟩, none⟩

/-- Embeds `Command::arg(a)`: pushes one argument. -/
def Command.arg (c : Command) (a : String) : Command :=
  { c with args := c.args ++ [a] }

/-- Embeds `Command::args(l)`: pushes each argument in order. -/
def Command.addArgs (c : Command) (l : List String) : Command :=
  { c with args := c.args ++ l }

/-- Embeds `Command::env(k, v)` (via `CommandEnv::set`): inserts or overwrites
the mapping `k ↦ v`. -/
def Command.envSet (c : Command) (k v : String) : Command :=
  { c with env := { c.env with vars := c.env.vars ++ [(k, some v)] } }

/-- Embeds `Command::envs(pairs)`: applies `env` to each pair in order. -/
def Command.envsSet (c : Command) (pairs : List (String × String)) : Command :=
  pairs.foldl (fun acc p => acc.envSet p.1 p.2) c

/-- Embeds `Command::env_clear` (via `CommandEnv::clear`): sets the `clear` flag
and empties the override table. -/
def Command.envClear (c : Command) : Command :=
  { c with env := ⟨true, []⟩ }

/-- Embeds `Command::env_remove(k)` (via `CommandEnv::remove`): when the
environment has been cleared the key's entry is deleted from the table,
otherwise a removal marker `(k, none)` is inserted (overriding any earlier
entry for `k`). -/
def Command.envRemove (c : Command) (k : String) : Command :=
  if c.env.clear then
    { c with env := { c.env with vars := c.env.vars.filter (fun p => p.1 ≠ k) } }
  else
    { c with env := { c.env with vars := c.env.vars ++ [(k, none)] } }

/-- Embeds `Command::current_dir(d)`. -/
def Command.currentDir (c : Command) (d : String) : Command :=
  { c with cwd := some d }

/-- One environment override applied on top of an accumulated
environment: `(k, some v)` sets `k`, `(k, none)` unsets it. -/
def applyOverride (acc : String → Option String) (p : String × Option String) :
    String → Option String :=
  fun k => if k = p.1 then p.2 else acc k

/-- The environment the spawned child receives, mirroring
`CommandEnv::capture`: start from the parent's environment (or from
nothing when cleared) and apply every override in table order. -/
def CommandEnv.capture (ce : CommandEnv) (parent : String → Option String) :
    String → Option String :=
  ce.vars.foldl applyOverride (if ce.clear then fun _ => none else parent)

/-- The configured child environment of a `Command`, given the parent
process's environment. -/
def Command.capturedEnv (c : Command) (parent : String → Option String) :
    String → Option String :=
  c.env.capture parent

/-- Embeds `pub enum NodeEnv { Development, Production, Custom(String) }`. -/
inductive NodeEnv where
  | Development
  | Production
  | Custom (c : String)
  deriving DecidableEq

/-- Embeds `pub struct NpmEnv(Command)`. -/
structure NpmEnv where
  cmd : Command
  deriving DecidableEq

/-- Embeds `pub struct Npm { cmd: Command, args: Vec<String> }`. -/
structure Npm where
  cmd : Command
  args : List String
  deriving DecidableEq

/-- Embeds `impl Default for NpmEnv`: `Command::new(CMD)`, one argument `OPT`,
working directory set to the process's current directory.  Reading the
current directory is effectful, so it is passed in as `cwd`. -/
def NpmEnv.default (cwd : String) : NpmEnv :=
  ⟨((Command.new CMD).arg OPT).currentDir cwd⟩

/-- Embeds `impl Clone for NpmEnv`: a fresh `Command` from the original's
program, arguments and working directory (`get_current_dir().unwrap()`;
every configurator reachable through the public API has a working
directory set, since `Default` sets one).  The environment overrides and
the `clear` flag are not copied. -/
def NpmEnv.clone (e : NpmEnv) : NpmEnv :=
  ⟨(((Command.new e.cmd.program).addArgs e.cmd.args).currentDir e.cmd.cwd.get!)⟩

/-- Embeds `NpmEnv::with_env`. -/
def NpmEnv.with_env (e : NpmEnv) (k v : String) : NpmEnv :=
  ⟨e.cmd.envSet k v⟩

/-- Embeds `NpmEnv::with_node_env`: maps the `NodeEnv` variant to its string and
delegates to `with_env(NODE_ENV, ·)`. -/
def NpmEnv.with_node_env (e : NpmEnv) (node_env : NodeEnv) : NpmEnv :=
  let env := match node_env with
    | NodeEnv.Development => "development"
    | NodeEnv.Production => "production"
    | NodeEnv.Custom c => c
  e.with_env NODE_ENV env

/-- Embeds `NpmEnv::with_envs`. -/
def NpmEnv.with_envs (e : NpmEnv) (vars : List (String × String)) : NpmEnv :=
  ⟨e.cmd.envsSet vars⟩

/-- Embeds `NpmEnv::clear_envs`. -/
def NpmEnv.clear_envs (e : NpmEnv) : NpmEnv :=
  ⟨e.cmd.envClear⟩

/-- Embeds `NpmEnv::remove_env`. -/
def NpmEnv.remove_env (e : NpmEnv) (k : String) : NpmEnv :=
  ⟨e.cmd.envRemove k⟩

/-- Embeds `NpmEnv::set_path`. -/
def NpmEnv.set_path (e : NpmEnv) (path : String) : NpmEnv :=
  ⟨e.cmd.currentDir path⟩

/-- Embeds `NpmEnv::init_env`: moves the configured `Command` into an `Npm` with
an empty fragment list. -/
def NpmEnv.init_env (e : NpmEnv) : Npm :=
  ⟨e.cmd, []⟩

/-- The configured child environment of an `NpmEnv`. -/
def NpmEnv.capturedEnv (e : NpmEnv) (parent : String → Option String) :
    String → Option String :=
  e.cmd.capturedEnv parent

/-- Embeds `impl Default for Npm`. -/
def Npm.default (cwd : String) : Npm :=
  (NpmEnv.default cwd).init_env

/-- Embeds `Npm::npm_append`: pushes `[NPM, npm_cmd]` chained with `chain`,
joined with a single space, as one fragment. -/
def Npm.npm_append (n : Npm) (npm_cmd : String) (chain : List String) : Npm :=
  { n with args := n.args ++ [String.intercalate " " (NPM :: npm_cmd :: chain)] }

/-- Embeds `Npm::init`. -/
def Npm.init (n : Npm) : Npm :=
  n.npm_append NPM_INIT ["-y"]

/-- Embeds `Npm::install` (`args.unwrap_or_default()`). -/
def Npm.install (n : Npm) (args : Option (List String)) : Npm :=
  n.npm_append NPM_INSTALL (args.getD [])

/-- Embeds `Npm::uninstall`. -/
def Npm.uninstall (n : Npm) (pkg : List String) : Npm :=
  n.npm_append NPM_UNINSTALL pkg

/-- Embeds `Npm::update` (`pkg.unwrap_or_default()`). -/
def Npm.update (n : Npm) (pkg : Option (List String)) : Npm :=
  n.npm_append NPM_UPDATE (pkg.getD [])

/-- Embeds `Npm::run`: pushes `[NPM, NPM_RUN, command].join(" ")` directly. -/
def Npm.run (n : Npm) (command : String) : Npm :=
  { n with args := n.args ++ [String.intercalate " " [NPM, NPM_RUN, command]] }

/-- Embeds `Npm::custom`. -/
def Npm.custom (n : Npm) (command : String) (args : Option (List String)) : Npm :=
  n.npm_append command (args.getD [])

/-- An I/O launch error, as returned by `Command::status` when the shell
interpreter cannot be found or spawned. -/
structure IoError where
  code : Nat
  deriving DecidableEq

/-- Exit status of a terminated child process; `success` is
`code = 0`. -/
structure ExitStatus where
  code : Int
  deriving DecidableEq

/-- Embeds `ExitStatus::success`. -/
def ExitStatus.success (s : ExitStatus) : Prop := s.code = 0

/-- What the operating system does with a fully built command: either the
process is launched and terminates with an exit status, or spawning
fails. -/
inductive SpawnOutcome where
  | launched (status : ExitStatus)
  | launchFailure (e : IoError)
  deriving DecidableEq

/-- The command `Npm::exec` builds before spawning: the configured
`Command` with one extra argument, the fragments joined by `" && "`
(`self.cmd.arg(self.args.join(" && "))`). -/
def Npm.execCommand (n : Npm) : Command :=
  n.cmd.arg (String.intercalate " && " n.args)

/-- Embeds `Npm::exec`: builds the joined command and calls
`self.cmd.status()`.  The spawn itself is the OS's business and is
modelled by the oracle `os`: a launch failure becomes the `Err` case, a
launched child's exit status becomes `Ok` regardless of the status's
value. -/
def Npm.exec (n : Npm) (os : Command → SpawnOutcome) : Except IoError ExitStatus :=
  match os n.execCommand with
  | SpawnOutcome.launched s => Except.ok s
  | SpawnOutcome.launchFailure e => Except.error e

/-- One append operation on the command builder, covering every public
fragment-appending method. -/
inductive NpmOp where
  | init
  | install (args : Option (List String))
  | uninstall (pkg : List String)
  | update (pkg : Option (List String))
  | run (command : String)
  | custom (command : String) (args : Option (List String))

/-- Applying one append operation to a builder. -/
def NpmOp.apply (n : Npm) : NpmOp → Npm
  | NpmOp.init => n.init
  | NpmOp.install a => n.install a
  | NpmOp.uninstall p => n.uninstall p
  | NpmOp.update p => n.update p
  | NpmOp.run c => n.run c
  | NpmOp.custom c a => n.custom c a

/-- The fragment string an operation appends. -/
def NpmOp.fragment : NpmOp → String
  | NpmOp.init => String.intercalate " " [NPM, NPM_INIT, "-y"]
  | NpmOp.install a => String.intercalate " " (NPM :: NPM_INSTALL :: a.getD [])
  | NpmOp.uninstall p => String.intercalate " " (NPM :: NPM_UNINSTALL :: p)
  | NpmOp.update p => String.intercalate " " (NPM :: NPM_UPDATE :: p.getD [])
  | NpmOp.run c => String.intercalate " " [NPM, NPM_RUN, c]
  | NpmOp.custom c a => String.intercalate " " (NPM :: c :: a.getD [])

/-- Applying a sequence of append operations in order. -/
def NpmOp.applyAll (n : Npm) (ops : List NpmOp) : Npm :=
  ops.foldl NpmOp.apply n

/-- Appending one override changes the captured result only at its key. -/
theorem foldl_applyOverride_append (l : List (String × Option String))
    (base : String → Option String) (p : String × Option String) (k : String) :
    List.foldl applyOverride base (l ++ [p]) k =
      if k = p.1 then p.2 else List.foldl applyOverride base l k := by
  simp [List.foldl_append, applyOverride]

/-- The captured value at a key depends on the base environment only
through its value at that key. -/
theorem foldl_applyOverride_congr (l : List (String × Option String))
    (b₁ b₂ : String → Option String) (k : String) (h : b₁ k = b₂ k) :
    List.foldl applyOverride b₁ l k = List.foldl applyOverride b₂ l k := by
  induction l generalizing b₁ b₂ with
  | nil => exact h
  | cons p rest ih =>
      apply ih
      unfold applyOverride
      by_cases hk : k = p.1
      · simp [hk]
      · simp [hk, h]

/-- Deleting every entry for a key makes the capture fall through to the
base environment at that key. -/
theorem foldl_applyOverride_filter_self (l : List (String × Option String))
    (base : String → Option String) (k : String) :
    List.foldl applyOverride base (l.filter (fun p => p.1 ≠ k)) k = base k := by
  induction l generalizing base with
  | nil => rfl
  | cons p rest ih =>
      by_cases hp : p.1 = k
      · have hfil : (p :: rest).filter (fun q : String × Option String => q.1 ≠ k) =
            rest.filter (fun q : String × Option String => q.1 ≠ k) := by
          simp [List.filter_cons, hp]
        rw [hfil]
        exact ih base
      · have hfil : (p :: rest).filter (fun q : String × Option String => q.1 ≠ k) =
            p :: rest.filter (fun q : String × Option String => q.1 ≠ k) := by
          simp [List.filter_cons, hp]
        rw [hfil, List.foldl_cons, ih (applyOverride base p)]
        have hk : ¬ k = p.1 := fun h => hp h.symm
        simp [applyOverride, hk]

/-- Deleting every entry for one key leaves the capture unchanged at any
other key. -/
theorem foldl_applyOverride_filter_ne (l : List (String × Option String))
    (base : String → Option String) (k k' : String) (hne : k' ≠ k) :
    List.foldl applyOverride base (l.filter (fun p => p.1 ≠ k)) k' =
      List.foldl applyOverride base l k' := by
  induction l generalizing base with
  | nil => rfl
  | cons p rest ih =>
      by_cases hp : p.1 = k
      · have hfil : (p :: rest).filter (fun q : String × Option String => q.1 ≠ k) =
            rest.filter (fun q : String × Option String => q.1 ≠ k) := by
          simp [List.filter_cons, hp]
        rw [hfil, ih base]
        apply foldl_applyOverride_congr
        have hk' : ¬ k' = p.1 := fun h => hne (h.trans hp)
        simp [applyOverride, hk']
      · have hfil : (p :: rest).filter (fun q : String × Option String => q.1 ≠ k) =
            p :: rest.filter (fun q : String × Option String => q.1 ≠ k) := by
          simp [List.filter_cons, hp]
        rw [hfil, List.foldl_cons]
        exact ih (applyOverride base p)

/-- Each append operation appends exactly its fragment and leaves the
configured command untouched. -/
theorem NpmOp.apply_args (n : Npm) (op : NpmOp) :
    (op.apply n).args = n.args ++ [op.fragment] ∧ (op.apply n).cmd = n.cmd := by
  cases op <;>
    simp [NpmOp.apply, NpmOp.fragment, Npm.init, Npm.install, Npm.uninstall,
      Npm.update, Npm.run, Npm.custom, Npm.npm_append]

/-- Applying a sequence of append operations appends the fragments in
call order and leaves the configured command untouched. -/
theorem NpmOp.applyAll_args (n : Npm) (ops : List NpmOp) :
    (NpmOp.applyAll n ops).args = n.args ++ ops.map NpmOp.fragment ∧
      (NpmOp.applyAll n ops).cmd = n.cmd := by
  induction ops generalizing n with
  | nil => simp [NpmOp.applyAll]
  | cons op rest ih =>
      have h := NpmOp.apply_args n op
      have h' := ih (op.apply n)
      refine ⟨?_, ?_⟩
      · simp only [NpmOp.applyAll, List.foldl_cons] at h' ⊢
        rw [h'.1, h.1]
        simp
      · simp only [NpmOp.applyAll, List.foldl_cons] at h' ⊢
        rw [h'.2, h.2]

/-- C1: for every sequence of append operations on the command builder,
`exec` builds a single command string equal to the appended fragments, in
call order, separated by `" && "`, and passes it as one additional
argument to the configured shell invocation; for the default configurator
that invocation is `CMD OPT "<joined fragments>"`. -/
theorem exec_passes_joined_fragments (e : NpmEnv) (cwd : String) (ops : List NpmOp) :
    (NpmOp.applyAll e.init_env ops).execCommand.program = e.cmd.program ∧
    (NpmOp.applyAll e.init_env ops).execCommand.args =
      e.cmd.args ++ [String.intercalate " && " (ops.map NpmOp.fragment)] ∧
    (NpmOp.applyAll (NpmEnv.default cwd).init_env ops).execCommand.program = CMD ∧
    (NpmOp.applyAll (NpmEnv.default cwd).init_env ops).execCommand.args =
      [OPT, String.intercalate " && " (ops.map NpmOp.fragment)] := by
  obtain ⟨h1, h2⟩ := NpmOp.applyAll_args e.init_env ops
  obtain ⟨hd1, hd2⟩ := NpmOp.applyAll_args (NpmEnv.default cwd).init_env ops
  refine ⟨?_, ?_, ?_, ?_⟩
  · show (NpmOp.applyAll e.init_env ops).cmd.program = e.cmd.program
    rw [h2]
    rfl
  · show (NpmOp.applyAll e.init_env ops).cmd.args ++
        [String.intercalate " && " (NpmOp.applyAll e.init_env ops).args] =
      e.cmd.args ++ [String.intercalate " && " (ops.map NpmOp.fragment)]
    rw [h2, h1]
    rfl
  · show (NpmOp.applyAll (NpmEnv.default cwd).init_env ops).cmd.program = CMD
    rw [hd2]
    rfl
  · show (NpmOp.applyAll (NpmEnv.default cwd).init_env ops).cmd.args ++
        [String.intercalate " && "
          (NpmOp.applyAll (NpmEnv.default cwd).init_env ops).args] =
      [OPT, String.intercalate " && " (ops.map NpmOp.fragment)]
    rw [hd2, hd1]
    rfl

/-- C2: `exec` returns an error exactly when the operating system reports
a launch failure for the built command; a launched child's exit status is
returned as `Ok`, whatever its value. -/
theorem exec_error_iff_launch_failure (n : Npm) (os : Command → SpawnOutcome) :
    (∀ er, n.exec os = Except.error er ↔
        os n.execCommand = SpawnOutcome.launchFailure er) ∧
    (∀ s, os n.execCommand = SpawnOutcome.launched s → n.exec os = Except.ok s) := by
  constructor
  · intro er
    unfold Npm.exec
    cases h : os n.execCommand <;> simp
  · intro s hs
    unfold Npm.exec
    rw [hs]

/-- Witness for C2 at a concrete builder and oracle: the oracle launches
the child with exit code 2 (a failure), and `exec` returns `Ok` of that
status. -/
theorem exec_error_iff_launch_failure_witness :
    (fun _ : Command => SpawnOutcome.launched ⟨2⟩) (Npm.default "d").execCommand =
        SpawnOutcome.launched ⟨2⟩ ∧
    (Npm.default "d").exec (fun _ => SpawnOutcome.launched ⟨2⟩) = Except.ok ⟨2⟩ :=
  ⟨rfl, (exec_error_iff_launch_failure (Npm.default "d")
      (fun _ => SpawnOutcome.launched ⟨2⟩)).2 ⟨2⟩ rfl⟩

/-- C3: `install` and `update` append exactly `"npm install"`
(respectively `"npm update"`) when the package list is `none` or empty,
and the space-separated package names after the sub-command otherwise. -/
theorem install_update_fragments (n : Npm) (pkgs : List String) :
    (n.install none).args = n.args ++ ["npm install"] ∧
    (n.install (some [])).args = n.args ++ ["npm install"] ∧
    (n.install (some pkgs)).args =
      n.args ++ [String.intercalate " " ("npm" :: "install" :: pkgs)] ∧
    (n.update none).args = n.args ++ ["npm update"] ∧
    (n.update (some [])).args = n.args ++ ["npm update"] ∧
    (n.update (some pkgs)).args =
      n.args ++ [String.intercalate " " ("npm" :: "update" :: pkgs)] :=
  ⟨rfl, rfl, rfl, rfl, rfl, rfl⟩

/-- C4: `uninstall`, `run` and `custom` append exactly their documented
fragments. -/
theorem uninstall_run_custom_fragments (n : Npm) (pkgs : List String) (command : String) :
    (n.uninstall ["x"]).args = n.args ++ ["npm uninstall x"] ∧
    (n.uninstall pkgs).args =
      n.args ++ [String.intercalate " " ("npm" :: "uninstall" :: pkgs)] ∧
    (n.run "build").args = n.args ++ ["npm run build"] ∧
    (n.run command).args = n.args ++ [String.intercalate " " ["npm", "run", command]] ∧
    (n.custom "audit" none).args = n.args ++ ["npm audit"] :=
  ⟨rfl, rfl, rfl, rfl, rfl⟩

/-- C7: a builder with no appended fragments still passes one argument to
the shell: the empty string (the join of zero fragments); for the default
builder the invocation is `CMD OPT ""`. -/
theorem empty_builder_executes_empty_command (e : NpmEnv) (cwd : String) :
    e.init_env.execCommand.args = e.cmd.args ++ [""] ∧
    (Npm.default cwd).execCommand.program = CMD ∧
    (Npm.default cwd).execCommand.args = [OPT, ""] :=
  ⟨rfl, rfl, rfl⟩

/-- C9: `init` appends exactly the fragment `"npm init -y"` and, like the
other appends, mutates only the fragment list, leaving the configured
command untouched. -/
theorem init_appends_npm_init_y (n : Npm) :
    n.init.args = n.args ++ ["npm init -y"] ∧ n.init.cmd = n.cmd :=
  ⟨rfl, rfl⟩

/-- C5: clearing all environment variables and then setting one key/value
pair yields a configured child environment containing exactly that one
variable, whatever the parent environment held. -/
theorem clear_then_with_env_single (e : NpmEnv) (k v : String)
    (parent : String → Option String) (k' : String) :
    ((e.clear_envs.with_env k v).capturedEnv parent) k' =
      if k' = k then some v else none := by
  simp [NpmEnv.clear_envs, NpmEnv.with_env, NpmEnv.capturedEnv, Command.envClear,
    Command.envSet, Command.capturedEnv, CommandEnv.capture, applyOverride]

/-- C6: setting a key and then removing it leaves the key absent from the
configured child environment; removing a key that is absent from the
configured child environment leaves that environment unchanged. -/
theorem with_env_then_remove_env (e : NpmEnv) (k v : String)
    (parent : String → Option String) (k' : String) :
    (((e.with_env k v).remove_env k).capturedEnv parent) k = none ∧
    ((e.capturedEnv parent) k = none →
      ((e.remove_env k).capturedEnv parent) k' = (e.capturedEnv parent) k') := by
  constructor
  · cases hcl : e.cmd.env.clear
    · simp only [NpmEnv.with_env, NpmEnv.remove_env, NpmEnv.capturedEnv,
        Command.capturedEnv, Command.envSet, Command.envRemove, hcl,
        Bool.false_eq_true, if_false, CommandEnv.capture]
      rw [foldl_applyOverride_append]
      simp
    · simp only [NpmEnv.with_env, NpmEnv.remove_env, NpmEnv.capturedEnv,
        Command.capturedEnv, Command.envSet, Command.envRemove, hcl, if_true,
        CommandEnv.capture]
      have hone : (([(k, some v)] : List (String × Option String)).filter
          (fun p => p.1 ≠ k)) = [] := by simp
      rw [List.filter_append, hone, List.append_nil,
        foldl_applyOverride_filter_self]
  · intro h
    cases hcl : e.cmd.env.clear
    · simp only [NpmEnv.capturedEnv, Command.capturedEnv, CommandEnv.capture,
        hcl, Bool.false_eq_true, if_false] at h ⊢
      simp only [NpmEnv.remove_env, Command.envRemove, hcl, Bool.false_eq_true,
        if_false, CommandEnv.capture]
      rw [foldl_applyOverride_append]
      by_cases hk : k' = k
      · rw [if_pos hk, hk]
        exact h.symm
      · rw [if_neg hk]
    · simp only [NpmEnv.capturedEnv, Command.capturedEnv, CommandEnv.capture,
        hcl, if_true] at h ⊢
      simp only [NpmEnv.remove_env, Command.envRemove, hcl, if_true,
        CommandEnv.capture]
      by_cases hk : k' = k
      · rw [hk, foldl_applyOverride_filter_self]
        exact h.symm
      · rw [foldl_applyOverride_filter_ne _ _ _ _ hk]

/-- Witness for C6 at a concrete configurator: after setting and removing
`FOO` the key is absent, and removing `FOO` (absent under an empty parent
environment) leaves the value at `BAR` unchanged. -/
theorem with_env_then_remove_env_witness :
    ((((NpmEnv.default "w").with_env "FOO" "bar").remove_env "FOO").capturedEnv
        (fun _ => none)) "FOO" = none ∧
    (((NpmEnv.default "w").remove_env "FOO").capturedEnv (fun _ => none)) "BAR" =
      ((NpmEnv.default "w").capturedEnv (fun _ => none)) "BAR" :=
  ⟨(with_env_then_remove_env (NpmEnv.default "w") "FOO" "bar"
      (fun _ => none) "BAR").1,
   (with_env_then_remove_env (NpmEnv.default "w") "FOO" "bar"
      (fun _ => none) "BAR").2 rfl⟩

/-- Overwriting semantics of two inserts on the same key: the child
environment only sees the later value. -/
theorem capture_envSet_overwrite (cm : Command) (k v₀ v : String)
    (parent : String → Option String) (k' : String) :
    ((cm.envSet k v₀).envSet k v).capturedEnv parent k' =
      (cm.envSet k v).capturedEnv parent k' := by
  simp only [Command.envSet, Command.capturedEnv, CommandEnv.capture]
  rw [foldl_applyOverride_append, foldl_applyOverride_append]
  by_cases hk : k' = k
  · simp [hk, applyOverride]
  · rw [if_neg hk, if_neg hk, foldl_applyOverride_append, if_neg hk]

/-- C10: `with_node_env` equals `with_env("NODE_ENV", ·)` with
`"development"`, `"production"`, or the custom string, and a later call
overwrites any earlier `NODE_ENV` setting in the configured child
environment. -/
theorem with_node_env_sets_node_env (e : NpmEnv) (c v₀ : String) (nv : NodeEnv)
    (parent : String → Option String) (k' : String) :
    e.with_node_env NodeEnv.Development = e.with_env "NODE_ENV" "development" ∧
    e.with_node_env NodeEnv.Production = e.with_env "NODE_ENV" "production" ∧
    e.with_node_env (NodeEnv.Custom c) = e.with_env "NODE_ENV" c ∧
    ((e.with_env "NODE_ENV" v₀).with_node_env nv).capturedEnv parent k' =
      (e.with_node_env nv).capturedEnv parent k' := by
  refine ⟨rfl, rfl, rfl, ?_⟩
  cases nv <;> exact capture_envSet_overwrite e.cmd "NODE_ENV" v₀ _ parent k'

/-- C8: cloning a configurator copies the shell program, the accumulated
arguments and the working directory, resets the environment overrides and
the cleared flag, and there is a configurator whose clone's configured
child environment differs from the original's. -/
theorem clone_drops_env (e : NpmEnv) (d : String) (h : e.cmd.cwd = some d) :
    e.clone.cmd.program = e.cmd.program ∧
    e.clone.cmd.args = e.cmd.args ∧
    e.clone.cmd.cwd = e.cmd.cwd ∧
    e.clone.cmd.env = ⟨false, []⟩ ∧
    ∃ (e' : NpmEnv) (parent : String → Option String) (k : String),
      e'.clone.capturedEnv parent k ≠ e'.capturedEnv parent k := by
  refine ⟨rfl, ?_, ?_, rfl, ?_⟩
  · simp [NpmEnv.clone, Command.new, Command.addArgs, Command.currentDir]
  · simp [NpmEnv.clone, Command.new, Command.addArgs, Command.currentDir, h]
  · refine ⟨(NpmEnv.default "w").with_env "FOO" "bar", fun _ => none, "FOO", ?_⟩
    decide

/-- Witness for C8 at the default configurator, whose working directory
is set. -/
theorem clone_drops_env_witness :
    (NpmEnv.default "w").cmd.cwd = some "w" ∧
    (NpmEnv.default "w").clone.cmd.cwd = (NpmEnv.default "w").cmd.cwd :=
  ⟨rfl, (clone_drops_env (NpmEnv.default "w") "w" rfl).2.2.1⟩
